import Mathlib

/-!
Shallow embedding of the TypeScript-test-file parsing core of the
refactor-typescript-ai repository (src/src/infrastructure/parsers/),
together with theorems settling the frozen claims about it.

Python strings are modelled as Lean `String` (operating on `String.data`,
a `List Char`); the ASCII fragments of Python's `\s`, `\w` and
`str.lower`/`str.strip` are embedded explicitly (all inputs of interest
are ASCII).  Python `int` counters that can go negative are modelled as
`Int`.  The two regular expressions of the import parser and the three
search patterns of the structure parser are embedded as explicit
backtracking matchers that follow the Python `re` engine's
leftmost / greedy / lazy exploration order for those concrete patterns.
-/

namespace RefactorTS

/-- ASCII fragment of Python's whitespace class `\s` (and of `str.strip`). -/
def isPyWs (c : Char) : Bool :=
  c = ' ' ∨ c = '\t' ∨ c = '\n' ∨ c = '\r' ∨ c = '\x0b' ∨ c = '\x0c'

/-- ASCII fragment of Python's word class `\w`: letters, digits, underscore. -/
def isWordChar (c : Char) : Bool := c.isAlphanum ∨ c = '_'

/-- The character class `[\'"]` used by the import/describe/it patterns. -/
def isQuoteChar (c : Char) : Bool := c = '\'' ∨ c = '"'

/-- Python `str.strip()` on the ASCII whitespace fragment. -/
def pyStrip (s : String) : String :=
  String.mk (((s.data.dropWhile isPyWs).reverse.dropWhile isPyWs).reverse)

/-- Python `str.lower()` (ASCII). -/
def pyLower (s : String) : String := String.mk (s.data.map Char.toLower)

/-- Contiguous-substring test on character lists: `pat` occurs in `s`. -/
def isSubList (pat s : List Char) : Bool :=
  match s with
  | [] => pat.isEmpty
  | _ :: rest => pat.isPrefixOf s || isSubList pat rest

/-- Python `pat in s`: contiguous substring test. -/
def pyIn (pat s : String) : Bool := isSubList pat.data s.data

/-- Python `s.startswith(p)`. -/
def pyStartsWith (s p : String) : Bool := p.data.isPrefixOf s.data

/-- Python `s.endswith(p)`. -/
def pyEndsWith (s p : String) : Bool := p.data.isSuffixOf s.data

/-- Length of the leading whitespace run: `len(line) - len(line.lstrip())`. -/
def leadingWsCount (s : String) : Nat := (s.data.takeWhile isPyWs).length

/-- Python `s.count(pat)` for a nonempty pattern: number of non-overlapping
occurrences, scanning left to right.  The scan shortens `s` by at least one
character per step, so fuel `s.length` is never exhausted. -/
def strCountAux (pat : List Char) : Nat → List Char → Nat
  | 0, _ => 0
  | _ + 1, [] => 0
  | fuel + 1, c :: rest =>
    if pat.isPrefixOf (c :: rest) then strCountAux pat fuel (rest.drop (pat.length - 1)) + 1
    else strCountAux pat fuel rest

/-- Python `content.count(pat)` on strings. -/
def strCount (s pat : String) : Nat := strCountAux pat.data s.data.length s.data

/-- Python `content.split('\n')`: split at every newline, keeping empty
pieces (`"".split('\n') == ['']`). -/
def pySplitNl (cs : List Char) : List String :=
  match cs with
  | [] => [""]
  | c :: rest =>
    match pySplitNl rest with
    | [] => [""]
    | s :: ss => if c = '\n' then "" :: s :: ss else String.mk (c :: s.data) :: ss

/-- Python `content.split('\n')` on strings. -/
def pyLines (content : String) : List String := pySplitNl content.data

/-- Python `len(re.findall(r'\w+:', s))`.  Each non-overlapping match of
`\w+:` ends at a `:` whose immediate predecessor is a word character, and
every such `:` terminates exactly one match, so the count equals the number
of adjacent pairs (word char, `:`) in `s`. -/
def countKeyTokens (s : String) : Nat :=
  (s.data.zip s.data.tail).countP fun p => isWordChar p.1 ∧ p.2 = ':'

/-- Python `'\n'.join(lines[i:e+1])`: the inclusive line slice joined. -/
def joinRange (lines : List String) (i e : Nat) : String :=
  String.intercalate "\n" ((lines.drop i).take (e + 1 - i))

/-! ### Import parser (import_parser.py)

`IMPORT_PATTERN = re.compile(r'^import\s+(.+?)\s+from\s+[\'"](.+?)[\'"]', re.MULTILINE)`
matched with `.match` against the stripped line, so it is anchored at
position 0.  The matcher below follows the engine's exploration order:
the leading `\s+` is greedy (longest first), group 1 `(.+?)` is lazy
(shortest first), and the inner `\s+` runs are forced to consume the whole
whitespace run because the following literal (`from` resp. a quote) cannot
match a whitespace character. -/

/-- Lazy `(.+?)` followed by `[\'"]` with nothing after it: collect at least
one non-newline character, stopping at the first quote reached after that. -/
def scanG2 (acc s : List Char) : Option (List Char) :=
  match s with
  | [] => none
  | c :: rest =>
    if acc ≠ [] ∧ isQuoteChar c then some acc.reverse
    else if c = '\n' then none
    else scanG2 (c :: acc) rest

/-- Attempt `\s+from\s+[\'"](.+?)[\'"]` at `s`, returning group 2.  The two
`\s+` runs must consume their whole whitespace run: any shorter choice leaves
a whitespace character where the literal `from` (which starts with `f`) or
the opening quote would have to match, so no backtracking over them can
succeed. -/
def tryAfterG1 (s : List Char) : Option (List Char) :=
  let w := (s.takeWhile isPyWs).length
  if w = 0 then none
  else
    let s2 := s.drop w
    if ['f', 'r', 'o', 'm'].isPrefixOf s2 then
      let s3 := s2.drop 4
      let w2 := (s3.takeWhile isPyWs).length
      if w2 = 0 then none
      else
        match s3.drop w2 with
        | c :: rest => if isQuoteChar c then scanG2 [] rest else none
        | [] => none
    else none

/-- Lazy group 1: extend `(.+?)` one non-newline character at a time, after
each character attempting the tail `\s+from\s+[\'"](.+?)[\'"]` on the rest. -/
def scanG1 (acc s : List Char) : Option (List Char × List Char) :=
  match s with
  | [] => none
  | c :: rest =>
    if c = '\n' then none
    else
      match tryAfterG1 rest with
      | some g2 => some ((c :: acc).reverse, g2)
      | none => scanG1 (c :: acc) rest

/-- Greedy backtracking over the first `\s+` after `import`: try consuming
`a` whitespace characters for `a` from the longest run down to 1. -/
def tryWsSplit (a : Nat) (s : List Char) : Option (List Char × List Char) :=
  match a with
  | 0 => none
  | b + 1 =>
    match scanG1 [] (s.drop (b + 1)) with
    | some r => some r
    | none => tryWsSplit b s

/-- `IMPORT_PATTERN.match(line)`: groups 1 and 2 of
`^import\s+(.+?)\s+from\s+[\'"](.+?)[\'"]`, or `none`. -/
def matchImportLine (line : String) : Option (String × String) :=
  let s := line.data
  if ['i', 'm', 'p', 'o', 'r', 't'].isPrefixOf s then
    let s1 := s.drop 6
    let a := (s1.takeWhile isPyWs).length
    if a = 0 then none
    else
      match tryWsSplit a s1 with
      | some (g1, g2) => some (String.mk g1, String.mk g2)
      | none => none
  else none

/-- `ImportStatement` dataclass of import_parser.py. -/
structure ImportStatement where
  raw : String
  imports : String
  source : String
  is_type_import : Bool
  line_number : Nat
deriving DecidableEq, Repr

/-- `ImportParser.parse_imports`: per-line anchored regex match against the
stripped line; `is_type_import` iff the clause (group 1) contains `type`. -/
def parse_imports (content : String) : List ImportStatement :=
  (pyLines content).enum.filterMap fun p =>
    match matchImportLine (pyStrip p.2) with
    | some (g1, g2) =>
      some { raw := pyStrip p.2, imports := g1, source := g2,
             is_type_import := pyIn "type" g1, line_number := p.1 }
    | none => none

/-- The four buckets returned by `ImportParser.categorize_imports`. -/
structure CategorizedImports where
  internal : List ImportStatement
  external : List ImportStatement
  test_utils : List ImportStatement
  types : List ImportStatement
deriving DecidableEq, Repr

/-- `ImportParser.categorize_imports`: type-import, else source starts with
`.`, else source contains `test` or `mock`, else external. -/
def categorize_imports (imports : List ImportStatement) : CategorizedImports :=
  imports.foldl
    (fun acc imp =>
      if imp.is_type_import then { acc with types := acc.types ++ [imp] }
      else if pyStartsWith imp.source "." then { acc with internal := acc.internal ++ [imp] }
      else if pyIn "test" imp.source ∨ pyIn "mock" imp.source then
        { acc with test_utils := acc.test_utils ++ [imp] }
      else { acc with external := acc.external ++ [imp] })
    ⟨[], [], [], []⟩

/-! ### Mock parser (mock_parser.py) -/

/-- `MockVariable` dataclass of mock_parser.py. -/
structure MockVariable where
  name : String
  content : String
  start_line : Nat
  end_line : Nat
  mock_type : String
  complexity : Nat
deriving DecidableEq, Repr

/-- `CONST_PATTERN.match(line)` for `^\s*const\s+(\w+)\s*[:=]`, returning the
captured identifier.  The pattern is deterministic: `\s*`/`\s+` must consume
their whole whitespace run (the following literal or `\w`/`[:=]` cannot match
whitespace), and the greedy `(\w+)` must take the maximal word-character run
(on backtracking, `\s*` would have to be followed by `[:=]` at a word
character, which fails). -/
def matchConstLine (line : String) : Option String :=
  let s1 := line.data.dropWhile isPyWs
  if ['c', 'o', 'n', 's', 't'].isPrefixOf s1 then
    let s2 := s1.drop 5
    let w := (s2.takeWhile isPyWs).length
    if w = 0 then none
    else
      let s3 := s2.drop w
      let name := s3.takeWhile isWordChar
      if name.isEmpty then none
      else
        match (s3.drop name.length).dropWhile isPyWs with
        | c :: _ => if c = ':' ∨ c = '=' then some (String.mk name) else none
        | [] => none
  else none

/-- `MockParser.MOCK_PREFIXES`. -/
def MOCK_PREFIXES : List String := ["mock", "test", "fixture", "stub", "spy"]

/-- `MockParser._is_mock_variable`: lowercased name starts or ends with one
of the mock prefixes. -/
def is_mock_variable (var_name : String) : Bool :=
  MOCK_PREFIXES.any fun p =>
    pyStartsWith (pyLower var_name) p || pyEndsWith (pyLower var_name) p

/-- One line of `MockParser._find_declaration_end`'s character scan: update
the (brace, paren, bracket) counters over every character of the line. -/
def countDelims (st : Int × Int × Int) (line : String) : Int × Int × Int :=
  line.data.foldl
    (fun st c =>
      if c = '\x7b' then (st.1 + 1, st.2.1, st.2.2)
      else if c = '\x7d' then (st.1 - 1, st.2.1, st.2.2)
      else if c = '(' then (st.1, st.2.1 + 1, st.2.2)
      else if c = ')' then (st.1, st.2.1 - 1, st.2.2)
      else if c = '[' then (st.1, st.2.1, st.2.2 + 1)
      else if c = ']' then (st.1, st.2.1, st.2.2 - 1)
      else st)
    st

/-- Line loop of `MockParser._find_declaration_end`: starting from line `i`
with counter state `st`, return the first line on which all three counters
are zero and the line contains `;`; fall back to `len(lines) - 1`.  The
loop advances one line per fuel unit, so fuel `lines.length + 1` is never
exhausted (and the fuel-exhaustion value coincides with the fallback). -/
def find_declaration_end_aux (lines : List String) : Nat → Nat → Int × Int × Int → Nat
  | 0, _, _ => lines.length - 1
  | fuel + 1, i, st =>
    if h : i < lines.length then
      let st2 := countDelims st lines[i]
      if st2.1 = 0 ∧ st2.2.1 = 0 ∧ st2.2.2 = 0 ∧ pyIn ";" lines[i] then i
      else find_declaration_end_aux lines fuel (i + 1) st2
    else lines.length - 1

/-- `MockParser._find_declaration_end`. -/
def find_declaration_end (lines : List String) (start : Nat) : Nat :=
  find_declaration_end_aux lines (lines.length + 1) start (0, 0, 0)

/-- `MockParser._infer_mock_type`. -/
def infer_mock_type (content : String) : String :=
  if pyIn "jest.fn" (pyLower content) then "function"
  else if pyIn "\x7b" content ∧ pyIn "\x7d" content then
    if pyIn "repository" (pyLower content) then "repository" else "object"
  else if pyIn "[" content ∧ pyIn "]" content then "array"
  else "primitive"

/-- `MockParser._calculate_mock_complexity`. -/
def calculate_mock_complexity (content : String) : Nat :=
  strCount content "\x7b" + strCount content "[" + countKeyTokens content +
    strCount content "=>"

/-- `MockParser.parse_mocks`'s cursor loop from line `i`, over an explicit
fuel argument consumed once per loop iteration.  Every iteration advances
the cursor by at least one line (the declaration end of an in-range line is
never below it — `find_declaration_end_ge` below), so fuel
`lines.length + 1` is never exhausted and the wrapper computes exactly the
Python loop. -/
def parse_mocks_aux (lines : List String) : Nat → Nat → List MockVariable
  | 0, _ => []
  | fuel + 1, i =>
    if h : i < lines.length then
      match matchConstLine lines[i] with
      | some var_name =>
        if is_mock_variable var_name then
          let e := find_declaration_end lines i
          let content := joinRange lines i e
          { name := var_name, content := content, start_line := i, end_line := e,
            mock_type := infer_mock_type content,
            complexity := calculate_mock_complexity content }
            :: parse_mocks_aux lines fuel (e + 1)
        else parse_mocks_aux lines fuel (i + 1)
      | none => parse_mocks_aux lines fuel (i + 1)
    else []

/-- `MockParser.parse_mocks`. -/
def parse_mocks (lines : List String) : List MockVariable :=
  parse_mocks_aux lines (lines.length + 1) 0

/-! ### Test structure parser (test_structure_parser.py) -/

/-- `BlockType` enum of test_structure_parser.py. -/
inductive BlockType where
  | DESCRIBE
  | IT
  | BEFORE_EACH
  | AFTER_EACH
  | BEFORE_ALL
  | AFTER_ALL
deriving DecidableEq, Repr

/-- A value stored in a `TestBlock`'s metadata dict. -/
inductive MetaVal where
  | natV (n : Nat)
  | boolV (b : Bool)
deriving DecidableEq, Repr

/-- `TestBlock` dataclass: a node of the recovered describe/it/hook tree.
Recursive through `children`, so it is an inductive with explicit
projections. -/
inductive TestBlock where
  | mk (type : BlockType) (name : String) (start_line : Nat) (end_line : Nat)
      (content : String) (children : List TestBlock)
      (metadata : List (String × MetaVal))

def TestBlock.type : TestBlock → BlockType
  | .mk t _ _ _ _ _ _ => t

def TestBlock.name : TestBlock → String
  | .mk _ n _ _ _ _ _ => n

def TestBlock.start_line : TestBlock → Nat
  | .mk _ _ s _ _ _ _ => s

def TestBlock.end_line : TestBlock → Nat
  | .mk _ _ _ e _ _ _ => e

def TestBlock.content : TestBlock → String
  | .mk _ _ _ _ c _ _ => c

def TestBlock.children : TestBlock → List TestBlock
  | .mk _ _ _ _ _ ch _ => ch

def TestBlock.metadata : TestBlock → List (String × MetaVal)
  | .mk _ _ _ _ _ _ m => m

/-- `metadata.get(key, False)` for a boolean metadata entry. -/
def metaBoolOf (m : List (String × MetaVal)) (key : String) : Bool :=
  match m.find? (fun kv => kv.1 = key) with
  | some (_, .boolV v) => v
  | _ => false

/-- `block.metadata.get(key, False)` for a boolean metadata entry. -/
def TestBlock.metaBool (b : TestBlock) (key : String) : Bool :=
  metaBoolOf b.metadata key

/-- `block.metadata[key]` for a numeric metadata entry (0 when absent). -/
def TestBlock.metaNat (b : TestBlock) (key : String) : Nat :=
  match b.metadata.find? (fun kv => kv.1 = key) with
  | some (_, .natV v) => v
  | _ => 0

/-- One character of `TestStructureParser._find_block_end`'s scan: update
the brace counter, flipping `started` at an opening brace. -/
def braceStep (st : Int × Bool) (c : Char) : Int × Bool :=
  if c = '\x7b' then (st.1 + 1, true)
  else if c = '\x7d' then (st.1 - 1, st.2)
  else st

/-- One line of `TestStructureParser._find_block_end`'s character scan. -/
def braceScanLine (st : Int × Bool) (line : String) : Int × Bool :=
  line.data.foldl braceStep st

/-- Line loop of `TestStructureParser._find_block_end` from line `i` with
carried counter/flag state: the first line after which `started` holds and
the brace counter is zero, falling back to `len(lines) - 1`.  The loop
advances one line per fuel unit, so fuel `lines.length + 1` is never
exhausted (and the fuel-exhaustion value coincides with the fallback). -/
def find_block_end_aux (lines : List String) : Nat → Nat → Int → Bool → Nat
  | 0, _, _, _ => lines.length - 1
  | fuel + 1, i, b, started =>
    if h : i < lines.length then
      let st := braceScanLine (b, started) lines[i]
      if st.2 ∧ st.1 = 0 then i
      else find_block_end_aux lines fuel (i + 1) st.1 st.2
    else lines.length - 1

/-- `TestStructureParser._find_block_end`. -/
def find_block_end (lines : List String) (start : Nat) : Nat :=
  find_block_end_aux lines (lines.length + 1) start 0 false

/-- After a candidate closing quote: `\s*,` must match, and since no
whitespace character is a comma the greedy `\s*` must consume the whole
whitespace run. -/
def commaAfterWs (s : List Char) : Bool :=
  match s.dropWhile isPyWs with
  | ',' :: _ => true
  | _ => false

/-- Try `[\'"](.+?)[\'"]\s*,` at the current position (just after the
literal part of the describe/it pattern): `acc` is the reversed group so
far; the lazy group stops at the first quote that is followed by optional
whitespace and a comma, and otherwise consumes the character. -/
def scanQName (acc s : List Char) : Option String :=
  match s with
  | [] => none
  | c :: rest =>
    if !acc.isEmpty && isQuoteChar c && commaAfterWs rest then
      some (String.mk acc.reverse)
    else if c = '\n' then none
    else scanQName (c :: acc) rest

/-- Try the full pattern `lit[\'"](.+?)[\'"]\s*,` anchored at `s`. -/
def matchQNameAt (lit s : List Char) : Option String :=
  if lit.isPrefixOf s then
    match s.drop lit.length with
    | c :: rest => if isQuoteChar c then scanQName [] rest else none
    | [] => none
  else none

/-- `re.search` for `lit[\'"](.+?)[\'"]\s*,`: try every start offset left to
right.  Embeds `DESCRIBE_PATTERN.search` (`lit = "describe("`) and
`IT_PATTERN.search` (`lit = "it("`). -/
def searchQName (lit s : List Char) : Option String :=
  match s with
  | [] => none
  | _ :: rest =>
    match matchQNameAt lit s with
    | some name => some name
    | none => searchQName lit rest

/-- The alternation `(beforeEach|afterEach|beforeAll|afterAll)\(` tried at
one position, alternatives in source order. -/
def hookAt (s : List Char) : Option String :=
  if ("beforeEach(").data.isPrefixOf s then some "beforeEach"
  else if ("afterEach(").data.isPrefixOf s then some "afterEach"
  else if ("beforeAll(").data.isPrefixOf s then some "beforeAll"
  else if ("afterAll(").data.isPrefixOf s then some "afterAll"
  else none

/-- `HOOK_PATTERN.search`: leftmost occurrence of a hook keyword followed by
`(`, returning the keyword (group 1). -/
def searchHook (s : List Char) : Option String :=
  match s with
  | [] => none
  | _ :: rest =>
    match hookAt s with
    | some h => some h
    | none => searchHook rest

/-- `block_type_map` of `TestStructureParser._parse_hook`. -/
def hookKind (s : String) : BlockType :=
  if s = "beforeEach" then .BEFORE_EACH
  else if s = "afterEach" then .AFTER_EACH
  else if s = "beforeAll" then .BEFORE_ALL
  else .AFTER_ALL

/-- `TestStructureParser._parse_it_block`.  (Python indexes `lines[start]`
only at in-range starts; out of range is modelled as `none`, a case no
caller reaches.) -/
def parse_it_block (lines : List String) (start : Nat) : Option TestBlock :=
  if h : start < lines.length then
    match searchQName ("it(").data (lines[start]).data with
    | none => none
    | some name =>
      let e := find_block_end lines start
      let content := joinRange lines start e
      some (.mk .IT name start e content []
        [("expect_count", .natV (strCount content "expect(")),
         ("has_async", .boolV (pyIn "async" lines[start] || pyIn "await" content)),
         ("line_count", .natV (e - start + 1))])
  else none

/-- `TestStructureParser._parse_hook`. -/
def parse_hook (lines : List String) (start : Nat) : Option TestBlock :=
  if h : start < lines.length then
    match searchHook (lines[start]).data with
    | none => none
    | some hook =>
      let e := find_block_end lines start
      some (.mk (hookKind hook) hook start e (joinRange lines start e) [] [])
  else none

/-- Does the (stripped) line mention one of the four hook keywords?  The
`any(hook in line for ...)` test of the structure parser. -/
def mentionsHook (line : String) : Bool :=
  pyIn "beforeEach" line || pyIn "afterEach" line ||
    pyIn "beforeAll" line || pyIn "afterAll" line

mutual

/-- `TestStructureParser._parse_describe_block`, its child-scanning loop,
and `TestStructureParser._parse_child_block`, embedded as a mutual family
over an explicit fuel argument (each call consumes one unit).  Along any
call chain the scanned position advances at least once every three calls
and is bounded by `lines.length`, so any fuel of at least
`3 * lines.length + 9` gives the Python functions' values; the wrappers
below pass exactly that. -/
def parse_describe_block (lines : List String) : Nat → Nat → Option TestBlock
  | 0, _ => none
  | fuel + 1, start =>
    if h : start < lines.length then
      match searchQName ("describe(").data (lines[start]).data with
      | none => none
      | some name =>
        let e := find_block_end lines start
        some (.mk .DESCRIBE name start e (joinRange lines start e)
          (parse_children lines fuel (start + 1) e)
          [("indentation", .natV (leadingWsCount lines[start])),
           ("is_nested", .boolV (pyStartsWith lines[start] " "))])
    else none
termination_by structural fuel _s => fuel

/-- Child-scanning loop of `_parse_describe_block`: sub-cursor from `i`
up to (strictly below) `stop`, jumping past each parsed child. -/
def parse_children (lines : List String) : Nat → Nat → Nat → List TestBlock
  | 0, _, _ => []
  | fuel + 1, i, stop =>
    if i < stop then
      match parse_child_block lines fuel i with
      | some c => c :: parse_children lines fuel (c.end_line + 1) stop
      | none => parse_children lines fuel (i + 1) stop
    else []
termination_by structural fuel _i _st => fuel

/-- `TestStructureParser._parse_child_block`: dispatch on the stripped line
(describe, then it, then hooks), returning the sub-parser's result
directly. -/
def parse_child_block (lines : List String) : Nat → Nat → Option TestBlock
  | 0, _ => none
  | fuel + 1, start =>
    if _h : start < lines.length then
      if pyIn "describe(" (pyStrip lines[start]) then parse_describe_block lines fuel start
      else if pyIn "it(" (pyStrip lines[start]) then parse_it_block lines start
      else if mentionsHook (pyStrip lines[start]) then parse_hook lines start
      else none
    else none
termination_by structural fuel _s => fuel

end

/-- Fuel that is always sufficient for the describe family (see the doc
comment of `parse_describe_block`). -/
def describeFuel (lines : List String) : Nat := 3 * lines.length + 9

/-- The structure parser's line-skip test: `not line or line.startswith('//')`
on the stripped line. -/
def skipLine (line : String) : Bool := line = "" || pyStartsWith line "//"

/-- Top-level cursor loop of `TestStructureParser.parse_structure`: skip
blank and `//` lines; otherwise try describe, then it, then hook, falling
through to the next pattern when the substring is present but the regex
does not match; jump past parsed blocks.  The loop advances the cursor at
every step, so fuel `lines.length + 1` is never exhausted. -/
def parse_structure_aux (lines : List String) : Nat → Nat → List TestBlock
  | 0, _ => []
  | fuel + 1, i =>
    if _h : i < lines.length then
      if skipLine (pyStrip lines[i]) then parse_structure_aux lines fuel (i + 1)
      else
        match (if pyIn "describe(" (pyStrip lines[i]) then parse_describe_block lines (describeFuel lines) i else none) with
        | some b => b :: parse_structure_aux lines fuel (b.end_line + 1)
        | none =>
          match (if pyIn "it(" (pyStrip lines[i]) then parse_it_block lines i else none) with
          | some b => b :: parse_structure_aux lines fuel (b.end_line + 1)
          | none =>
            match (if mentionsHook (pyStrip lines[i]) then parse_hook lines i else none) with
            | some b => b :: parse_structure_aux lines fuel (b.end_line + 1)
            | none => parse_structure_aux lines fuel (i + 1)
    else []

/-- `TestStructureParser.parse_structure`. -/
def parse_structure (lines : List String) : List TestBlock :=
  parse_structure_aux lines (lines.length + 1) 0

mutual

/-- `TestStructureParser.extract_categories`: depth-first names of nested
(`is_nested`) describe blocks, recursing into describe children. -/
def extract_categories : List TestBlock → List String
  | [] => []
  | b :: rest => extract_categories_block b ++ extract_categories rest

/-- The body of `extract_categories`'s loop for one block. -/
def extract_categories_block : TestBlock → List String
  | .mk t n _ _ _ ch m =>
    if t = .DESCRIBE then
      (if metaBoolOf m "is_nested" then [n] else []) ++ extract_categories ch
    else []

end

mutual

/-- `TestStructureParser.extract_test_cases`: depth-first names of `it`
blocks (recursing into children of non-`it` blocks that have any). -/
def extract_test_cases : List TestBlock → List String
  | [] => []
  | b :: rest => extract_test_cases_block b ++ extract_test_cases rest

/-- The body of `extract_test_cases`'s loop for one block. -/
def extract_test_cases_block : TestBlock → List String
  | .mk t n _ _ _ ch _ =>
    if t = .IT then [n]
    else if !ch.isEmpty then extract_test_cases ch
    else []

end

/-! ### Orchestrating parser (typescript_parser.py) -/

mutual

/-- `get_depth` inner function of `TypeScriptParser._calculate_nesting_depth`:
a leaf reports the accumulated depth, an inner node one more than the
maximum over its children (`get_depth_max` is Python's `max(...)` over the
nonempty list of child depths). -/
def get_depth : TestBlock → Nat → Nat
  | .mk _ _ _ _ _ [] _, cur => cur
  | .mk _ _ _ _ _ (c :: cs) _, cur => get_depth_max (c :: cs) (cur + 1)

/-- Maximum of `get_depth` over a list of blocks (0 for the empty list). -/
def get_depth_max : List TestBlock → Nat → Nat
  | [], _ => 0
  | b :: bs, cur => max (get_depth b cur) (get_depth_max bs cur)

end

/-- `TypeScriptParser._calculate_nesting_depth`. -/
def calculate_nesting_depth (blocks : List TestBlock) : Nat :=
  match blocks with
  | [] => 0
  | bs => get_depth_max bs 0

/-- `TypeScriptParser._calculate_cyclomatic`: 1 plus plain substring counts
over the whole file text. -/
def calculate_cyclomatic (content : String) : Nat :=
  strCount content "if " + strCount content "else " + strCount content "switch " +
    strCount content "for " + strCount content "while " +
    strCount content "&&" + strCount content "||" + 1

/-- One entry of `ParseResult.mock_data` (the dict built in
`TypeScriptParser.parse` from a `MockVariable`). -/
structure MockData where
  name : String
  content : String
  type : String
  complexity : Nat
  start_line : Nat
  end_line : Nat
deriving DecidableEq, Repr

/-- `ParseResult.complexity_metrics`. -/
structure ComplexityMetrics where
  cyclomatic_complexity : Nat
  max_nesting_depth : Nat
  total_blocks : Nat
deriving DecidableEq, Repr

/-- `ParseResult.raw_data`. -/
structure RawData where
  import_statements : List ImportStatement
  mock_variables : List MockVariable
  blocks : List TestBlock

/-- `ParseResult` dataclass of base_parser.py. -/
structure ParseResult where
  imports : List String
  mock_data : List MockData
  categories : List String
  test_cases : List String
  setup_hooks : List String
  complexity_metrics : ComplexityMetrics
  raw_data : RawData

/-- The four hook members of `BlockType`, as listed in the `setup_hooks`
comprehension of `TypeScriptParser.parse`. -/
def isHookKind (t : BlockType) : Bool :=
  t = .BEFORE_EACH || t = .AFTER_EACH || t = .BEFORE_ALL || t = .AFTER_ALL

/-- `TypeScriptParser.parse`. -/
def parse (content : String) : ParseResult :=
  let lines := pyLines content
  let import_statements := parse_imports content
  let mock_variables := parse_mocks lines
  let blocks := parse_structure lines
  { imports := import_statements.map (fun s => s.raw)
    mock_data := mock_variables.map fun m =>
      { name := m.name, content := m.content, type := m.mock_type,
        complexity := m.complexity, start_line := m.start_line,
        end_line := m.end_line }
    categories := extract_categories blocks
    test_cases := extract_test_cases blocks
    setup_hooks := (blocks.filter fun b => isHookKind b.type).map (fun b => b.name)
    complexity_metrics :=
      { cyclomatic_complexity := calculate_cyclomatic content
        max_nesting_depth := calculate_nesting_depth blocks
        total_blocks := blocks.length }
    raw_data :=
      { import_statements := import_statements
        mock_variables := mock_variables
        blocks := blocks } }

/-- `TypeScriptParser.can_parse`. -/
def can_parse (file_path : String) : Bool :=
  pyEndsWith file_path ".spec.ts" || pyEndsWith file_path ".test.ts" ||
    pyEndsWith file_path ".spec.tsx" || pyEndsWith file_path ".test.tsx"

/-! ### Specification-side definitions used by the claims -/

/-- The brace-scanner state reached from state `st` after processing lines
`i..j` inclusive. -/
def stateFrom (lines : List String) (st : Int × Bool) (i j : Nat) : Int × Bool :=
  ((lines.drop i).take (j + 1 - i)).foldl braceScanLine st

/-- The brace-scanner state (counter, `started`) after `_find_block_end`,
begun at line `start`, has processed lines `start..j` inclusive. -/
def braceStateThrough (lines : List String) (start j : Nat) : Int × Bool :=
  stateFrom lines (0, false) start j

/-- Does `_find_block_end`, begun at line `start`, meet its early-exit
condition (`started` and counter back to zero) at the end of line `j`? -/
def stopsAt (lines : List String) (start j : Nat) : Bool :=
  (braceStateThrough lines start j).2 && (braceStateThrough lines start j).1 == 0

/-- The invariants that every block of a `parse_structure` forest enjoys:
line range well-formed and in bounds, content is the exact inclusive line
slice, describe metadata records the start line's leading space, and every
child starts strictly below its parent and satisfies the same invariants. -/
inductive BlockInv (lines : List String) : TestBlock → Prop where
  | intro :
      ∀ b : TestBlock,
      b.start_line ≤ b.end_line →
      b.end_line ≤ lines.length - 1 →
      b.start_line < lines.length →
      b.content = joinRange lines b.start_line b.end_line →
      (b.type = .DESCRIBE →
        b.metaBool "is_nested" = pyStartsWith (lines.getD b.start_line "") " " ∧
        b.metaNat "indentation" = leadingWsCount (lines.getD b.start_line "")) →
      (∀ c ∈ b.children, b.start_line < c.start_line) →
      (∀ c ∈ b.children, BlockInv lines c) →
      BlockInv lines b

/-- Membership of a block anywhere in a forest: a top-level block, or a
child (at any depth) of one. -/
inductive InForest : List TestBlock → TestBlock → Prop where
  | top : ∀ {bs b}, b ∈ bs → InForest bs b
  | child : ∀ {bs p c}, InForest bs p → c ∈ p.children → InForest bs c

/-- Scenario A of the spec: one top-level `describe` containing a
`beforeEach` hook and two `it` blocks. -/
def scenarioA : String :=
  "describe('UserService', () => \x7b\n  beforeEach(() => \x7b\n    setup();\n  \x7d);\n  it('creates a user', () => \x7b\n    expect(1).toBe(1);\n  \x7d);\n  it('deletes a user', () => \x7b\n    expect(2).toBe(2);\n  \x7d);\n\x7d);"

/-- A two-line file whose only block is a tab-indented `describe`. -/
def tabLines : List String := ["\tdescribe('A', () => \x7b", "\x7d);"]

/-- The block `parse_structure` recovers from `tabLines`: indentation width
1 (the tab), but `is_nested` false (the line does not start with a space). -/
def tabBlock : TestBlock :=
  .mk .DESCRIBE "A" 0 1 "\tdescribe('A', () => \x7b\n\x7d);" []
    [("indentation", .natV 1), ("is_nested", .boolV false)]

/-- A two-line file whose only block is a space-indented `describe`. -/
def spaceLines : List String := [" describe('B', () => \x7b", "\x7d);"]

/-- The block `parse_structure` recovers from `spaceLines`. -/
def spaceBlock : TestBlock :=
  .mk .DESCRIBE "B" 0 1 " describe('B', () => \x7b\n\x7d);" []
    [("indentation", .natV 1), ("is_nested", .boolV true)]

/-- A two-line file whose only block is a `beforeEach` hook. -/
def hookLines : List String := ["beforeEach(() => \x7b", "\x7d);"]

/-- The block `parse_structure` recovers from `hookLines`. -/
def hookBlock : TestBlock :=
  .mk .BEFORE_EACH "beforeEach" 0 1 "beforeEach(() => \x7b\n\x7d);" [] []

/-! ### Supporting lemmas -/

/-- A character that does not occur as a one-character substring is not an
element. -/
theorem not_mem_of_isSubList_singleton (c : Char) (l : List Char)
    (h : isSubList [c] l = false) : c ∉ l := by
  induction l with
  | nil => exact List.not_mem_nil c
  | cons x rest ih =>
    simp only [isSubList, List.isPrefixOf, Bool.or_eq_false_iff,
      Bool.and_eq_false_iff] at h
    intro hmem
    rcases List.mem_cons.mp hmem with hx | hrest
    · rcases h.1 with h1 | h1
      · exact absurd (hx ▸ h1) (by simp)
      · exact absurd h1 (by simp [List.isPrefixOf])
    · exact ih h.2 hrest

/-- A character other than an opening brace leaves `started` untouched. -/
theorem braceStep_snd (st : Int × Bool) (c : Char) (h : c ≠ '\x7b') :
    (braceStep st c).2 = st.2 := by
  unfold braceStep
  rw [if_neg h]
  by_cases h2 : c = '\x7d' <;> simp [h2]

/-- A character list with no opening brace leaves the `started` flag of the
brace scanner untouched. -/
theorem braceFold_snd (cs : List Char) (st : Int × Bool) (h : ('\x7b') ∉ cs) :
    (cs.foldl braceStep st).2 = st.2 := by
  induction cs generalizing st with
  | nil => rfl
  | cons c cs ih =>
    simp only [List.mem_cons, not_or] at h
    simp only [List.foldl_cons]
    rw [ih _ h.2, braceStep_snd st c (fun hc => h.1 hc.symm)]

/-- A line with no opening brace leaves the `started` flag of the brace
scanner untouched. -/
theorem braceScanLine_snd (line : String) (st : Int × Bool)
    (h : ('\x7b') ∉ line.data) : (braceScanLine st line).2 = st.2 :=
  braceFold_snd line.data st h

/-- With the cursor out of range, the brace scanner's loop answers the
fallback index whatever the fuel. -/
theorem find_block_end_aux_oob (lines : List String) (fuel i : Nat) (b : Int) (s : Bool)
    (h : ¬ i < lines.length) :
    find_block_end_aux lines fuel i b s = lines.length - 1 := by
  cases fuel with
  | zero => rfl
  | succ fuel =>
    rw [find_block_end_aux]
    simp [h]

/-- The brace scanner's line loop never answers below an in-range starting
line. -/
theorem find_block_end_aux_ge (lines : List String) (fuel : Nat) :
    ∀ (i : Nat) (b : Int) (s : Bool), i < lines.length →
    i ≤ find_block_end_aux lines fuel i b s := by
  induction fuel with
  | zero =>
    intro i b s h
    show i ≤ lines.length - 1
    omega
  | succ fuel ih =>
    intro i b s h
    rw [find_block_end_aux]
    simp only [h, dif_pos]
    by_cases hstop : (braceScanLine (b, s) lines[i]).2 ∧ (braceScanLine (b, s) lines[i]).1 = 0
    · rw [if_pos hstop]
    · rw [if_neg hstop]
      rcases Nat.lt_or_ge (i + 1) lines.length with h2 | h2
      · exact Nat.le_of_succ_le (ih (i + 1) _ _ h2)
      · rw [find_block_end_aux_oob lines fuel (i + 1) _ _ (Nat.not_lt.mpr h2)]
        omega

/-- The brace scanner's line loop never answers past the last line. -/
theorem find_block_end_aux_le (lines : List String) (fuel : Nat) :
    ∀ (i : Nat) (b : Int) (s : Bool),
    find_block_end_aux lines fuel i b s ≤ lines.length - 1 := by
  induction fuel with
  | zero =>
    intro i b s
    exact Nat.le_refl _
  | succ fuel ih =>
    intro i b s
    rw [find_block_end_aux]
    by_cases h : i < lines.length
    · simp only [h, dif_pos]
      by_cases hstop : (braceScanLine (b, s) lines[i]).2 ∧ (braceScanLine (b, s) lines[i]).1 = 0
      · rw [if_pos hstop]
        omega
      · rw [if_neg hstop]
        exact ih (i + 1) _ _
    · simp only [h, dif_neg, not_false_iff]
      omega

/-- `_find_block_end` never answers below its (in-range) starting line. -/
theorem find_block_end_ge (lines : List String) (start : Nat) (h : start < lines.length) :
    start ≤ find_block_end lines start :=
  find_block_end_aux_ge lines (lines.length + 1) start 0 false h

/-- `_find_block_end` never answers past the last line. -/
theorem find_block_end_le (lines : List String) (start : Nat) :
    find_block_end lines start ≤ lines.length - 1 :=
  find_block_end_aux_le lines (lines.length + 1) start 0 false

/-- With the cursor out of range, `_find_declaration_end`'s loop answers
the fallback index whatever the fuel. -/
theorem find_declaration_end_aux_oob (lines : List String) (fuel i : Nat)
    (st : Int × Int × Int) (h : ¬ i < lines.length) :
    find_declaration_end_aux lines fuel i st = lines.length - 1 := by
  cases fuel with
  | zero => rfl
  | succ fuel =>
    rw [find_declaration_end_aux]
    simp [h]

/-- `_find_declaration_end`'s loop never answers below an in-range starting
line. -/
theorem find_declaration_end_aux_ge (lines : List String) (fuel : Nat) :
    ∀ (i : Nat) (st : Int × Int × Int), i < lines.length →
    i ≤ find_declaration_end_aux lines fuel i st := by
  induction fuel with
  | zero =>
    intro i st h
    show i ≤ lines.length - 1
    omega
  | succ fuel ih =>
    intro i st h
    rw [find_declaration_end_aux]
    simp only [h, dif_pos]
    by_cases hstop : (countDelims st lines[i]).1 = 0 ∧ (countDelims st lines[i]).2.1 = 0 ∧
        (countDelims st lines[i]).2.2 = 0 ∧ pyIn ";" lines[i]
    · rw [if_pos hstop]
    · rw [if_neg hstop]
      rcases Nat.lt_or_ge (i + 1) lines.length with h2 | h2
      · exact Nat.le_of_succ_le (ih (i + 1) _ h2)
      · rw [find_declaration_end_aux_oob lines fuel (i + 1) _ (Nat.not_lt.mpr h2)]
        omega

/-- `_find_declaration_end`'s loop never answers past the last line. -/
theorem find_declaration_end_aux_le (lines : List String) (fuel : Nat) :
    ∀ (i : Nat) (st : Int × Int × Int),
    find_declaration_end_aux lines fuel i st ≤ lines.length - 1 := by
  induction fuel with
  | zero =>
    intro i st
    exact Nat.le_refl _
  | succ fuel ih =>
    intro i st
    rw [find_declaration_end_aux]
    by_cases h : i < lines.length
    · simp only [h, dif_pos]
      by_cases hstop : (countDelims st lines[i]).1 = 0 ∧ (countDelims st lines[i]).2.1 = 0 ∧
          (countDelims st lines[i]).2.2 = 0 ∧ pyIn ";" lines[i]
      · rw [if_pos hstop]
        omega
      · rw [if_neg hstop]
        exact ih (i + 1) _
    · simp only [h, dif_neg, not_false_iff]
      omega

/-- `_find_declaration_end` never answers below its (in-range) start. -/
theorem find_declaration_end_ge (lines : List String) (start : Nat)
    (h : start < lines.length) : start ≤ find_declaration_end lines start :=
  find_declaration_end_aux_ge lines (lines.length + 1) start (0, 0, 0) h

/-- `_find_declaration_end` never answers past the last line. -/
theorem find_declaration_end_le (lines : List String) (start : Nat) :
    find_declaration_end lines start ≤ lines.length - 1 :=
  find_declaration_end_aux_le lines (lines.length + 1) start (0, 0, 0)

/-- Peeling the first line off a `stateFrom` scan. -/
theorem stateFrom_step (lines : List String) (st : Int × Bool) (i j : Nat)
    (h : i < lines.length) (hij : i ≤ j) :
    stateFrom lines st i j = stateFrom lines (braceScanLine st lines[i]) (i + 1) j := by
  unfold stateFrom
  rw [List.drop_eq_getElem_cons h]
  have h1 : j + 1 - i = (j - i) + 1 := by omega
  have h2 : j + 1 - (i + 1) = j - i := by omega
  rw [h1, h2, List.take_succ_cons, List.foldl_cons]

/-- `stateFrom` over the single line `i`. -/
theorem stateFrom_self (lines : List String) (st : Int × Bool) (i : Nat)
    (h : i < lines.length) :
    stateFrom lines st i i = braceScanLine st lines[i] := by
  rw [stateFrom_step lines st i i h (Nat.le_refl i)]
  unfold stateFrom
  simp

/-- If the early-exit condition fails on every scanned line, the brace
scanner's loop falls through to the last line index (whatever the fuel). -/
theorem find_block_end_aux_nostop (lines : List String) (fuel : Nat) :
    ∀ (i : Nat) (st : Int × Bool),
    (∀ j, i ≤ j → j < lines.length →
      ¬((stateFrom lines st i j).2 = true ∧ (stateFrom lines st i j).1 = 0)) →
    find_block_end_aux lines fuel i st.1 st.2 = lines.length - 1 := by
  induction fuel with
  | zero =>
    intro i st _
    rfl
  | succ fuel ih =>
    intro i st H
    by_cases h : i < lines.length
    case neg =>
      rw [find_block_end_aux]
      simp [h]
    rw [find_block_end_aux]
    simp only [h, dif_pos]
    have hself : braceScanLine (st.1, st.2) lines[i] = stateFrom lines st i i := by
      rw [stateFrom_self lines st i h]
    have hcond := H i (Nat.le_refl i) h
    rw [if_neg (by rw [hself]; simpa using hcond)]
    rw [hself]
    have := ih (i + 1) (stateFrom lines st i i) ?_
    · simpa using this
    · intro j hj hjl
      rw [stateFrom_self lines st i h, ← stateFrom_step lines st i j h (by omega)]
      exact H j (by omega) hjl

/-- Scanning lines none of which contains an opening brace leaves the
`started` flag untouched. -/
theorem braceFoldLines_snd (ls : List String) (st : Int × Bool)
    (H : ∀ l ∈ ls, ('\x7b') ∉ l.data) : (ls.foldl braceScanLine st).2 = st.2 := by
  induction ls generalizing st with
  | nil => rfl
  | cons l ls ih =>
    simp only [List.foldl_cons]
    rw [ih _ (fun x hx => H x (List.mem_cons_of_mem l hx))]
    exact braceScanLine_snd l st (H l (List.mem_cons_self l ls))

/-! ### Claims -/

/-- C4 (amended): if no line from `startIndex` to the end of the array
contains an opening brace, `findBlockEnd` falls through its scan and
returns `len(lines) - 1` — which equals `startIndex` exactly when
`startIndex` is the last line, and not otherwise. -/
theorem C4_no_brace_fallback (lines : List String) (start : Nat)
    (h1 : start < lines.length)
    (h2 : ∀ j < lines.length, start ≤ j → pyIn "\x7b" (lines.getD j "") = false) :
    find_block_end lines start = lines.length - 1 := by
  apply find_block_end_aux_nostop lines (lines.length + 1) start (0, false)
  intro j hj hjl hcon
  have hsnd : (stateFrom lines (0, false) start j).2 = false := by
    unfold stateFrom
    apply braceFoldLines_snd
    intro l hl
    have hl2 := List.mem_of_mem_take hl
    rw [List.mem_iff_getElem] at hl2
    obtain ⟨m, hm, hml⟩ := hl2
    rw [List.getElem_drop] at hml
    have hmm : start + m < lines.length := by
      rw [List.length_drop] at hm
      omega
    have hx := h2 (start + m) hmm (by omega)
    rw [List.getD_eq_getElem lines "" hmm] at hx
    rw [← hml]
    exact not_mem_of_isSubList_singleton _ _ hx
  rw [hsnd] at hcon
  exact absurd hcon.1 (by simp)

/-- C4 counterexample: with `lines = ["beforeEach(done);", "more"]` and
`startIndex = 0` no line contains a brace, yet `findBlockEnd` returns the
last index 1, not `startIndex = 0` as the claim states. -/
theorem C4_counterexample :
    find_block_end ["beforeEach(done);", "more"] 0 = 1 ∧
      find_block_end ["beforeEach(done);", "more"] 0 ≠ 0 := by
  constructor
  · decide
  · decide

/-- C4 witness: a concrete brace-free input for the amended theorem. -/
theorem C4_witness : find_block_end ["const a;", "const b;"] 1 = 1 :=
  C4_no_brace_fallback ["const a;", "const b;"] 1 (by decide) (by decide)

/-- C5 (confirmed): for any in-range `startIndex` the brace scanner is
total (it is a Lean function, so it cannot raise) and returns an index in
`[startIndex, len(lines) - 1]`; and if its early-exit condition — braces
opened at or after `startIndex` re-balancing to zero — never fires on any
scanned line, it returns `len(lines) - 1`. -/
theorem C5_find_block_end_range (lines : List String) (start : Nat)
    (h0 : 0 < lines.length) (h1 : start ≤ lines.length - 1) :
    start ≤ find_block_end lines start ∧
    find_block_end lines start ≤ lines.length - 1 ∧
    ((∀ j < lines.length, start ≤ j → stopsAt lines start j = false) →
      find_block_end lines start = lines.length - 1) := by
  have hlt : start < lines.length := by omega
  refine ⟨find_block_end_ge lines start hlt, find_block_end_le lines start, ?_⟩
  intro H
  apply find_block_end_aux_nostop lines (lines.length + 1) start (0, false)
  intro j hj hjl hcon
  have := H j hjl hj
  unfold stopsAt braceStateThrough at this
  rw [hcon.1, hcon.2] at this
  simp at this

/-- C5 witness: an unterminated `describe(` block; the scanner answers the
last line index. -/
theorem C5_witness : find_block_end ["describe('x', () => \x7b", "it"] 0 = 1 :=
  (C5_find_block_end_range ["describe('x', () => \x7b", "it"] 0 (by decide)
    (by decide)).2.2 (by decide)

/-- C1 counterexample: `'./test-helpers'` starts with `.`, and the code
checks the `.`-prefix rule before the contains-`test` rule, so that line
lands in `internal`, leaving `test_utils` empty — not in `test_utils` as
the claim states; likewise `'@nestjs/testing'` contains `test`, so that
line lands in `test_utils`, leaving `external` empty. -/
theorem C1_counterexample :
    (categorize_imports (parse_imports "import \x7b helper \x7d from './test-helpers';")).test_utils
      = [] ∧
    (categorize_imports (parse_imports "import \x7b Test \x7d from '@nestjs/testing';")).external
      = [] := by
  constructor
  · decide
  · decide

/-- C1 (amended): the precedence is type-import, then leading-`.` internal
path, then contains-`test`/`mock`, then external — so
`'./test-helpers'` goes to `internal` (the internal-path rule takes
precedence over the contains-`test` rule), `'@nestjs/testing'` goes to
`test_utils` (it contains `test`), `'./foo'` goes to `internal`, and the
`import type` line goes to `types`. -/
theorem C1_import_categorization :
    (categorize_imports (parse_imports "import \x7b helper \x7d from './test-helpers';")).internal
      = [{ raw := "import \x7b helper \x7d from './test-helpers';", imports := "\x7b helper \x7d",
           source := "./test-helpers", is_type_import := false, line_number := 0 }] ∧
    (categorize_imports (parse_imports "import \x7b Test \x7d from '@nestjs/testing';")).test_utils
      = [{ raw := "import \x7b Test \x7d from '@nestjs/testing';", imports := "\x7b Test \x7d",
           source := "@nestjs/testing", is_type_import := false, line_number := 0 }] ∧
    (categorize_imports (parse_imports "import \x7b Foo \x7d from './foo';")).internal
      = [{ raw := "import \x7b Foo \x7d from './foo';", imports := "\x7b Foo \x7d",
           source := "./foo", is_type_import := false, line_number := 0 }] ∧
    (categorize_imports (parse_imports "import type \x7b X \x7d from 'y';")).types
      = [{ raw := "import type \x7b X \x7d from 'y';", imports := "type \x7b X \x7d",
           source := "y", is_type_import := true, line_number := 0 }] := by
  refine ⟨?_, ?_, ?_, ?_⟩
  · decide
  · decide
  · decide
  · decide

/-- C2 counterexample: `const mockRepo = { findOne: jest.fn() };` contains
the substring `jest.fn`, and the function rule is checked first, so the
classifier answers `'function'`, not `'repository'` as the claim states. -/
theorem C2_counterexample :
    infer_mock_type "const mockRepo = \x7b findOne: jest.fn() \x7d;" = "function" ∧
    infer_mock_type "const mockRepo = \x7b findOne: jest.fn() \x7d;" ≠ "repository" := by
  constructor
  · decide
  · decide

/-- C2 (amended): the classifier checks function → repository → object →
array → primitive, first match winning; hence the `mockRepo` example
(which contains `jest.fn`) is classified `'function'` — `'repository'`
needs the substring `repository` and no `jest.fn`, as in the fifth
example — and any content containing `jest.fn` (case-insensitively) is
`'function'`. -/
theorem C2_mock_type_rules :
    infer_mock_type "const mockFn = jest.fn();" = "function" ∧
    infer_mock_type "const mockRepo = \x7b findOne: jest.fn() \x7d;" = "function" ∧
    infer_mock_type "const testData = [1,2,3];" = "array" ∧
    infer_mock_type "const mockId = 5;" = "primitive" ∧
    infer_mock_type "const mockUserRepository = \x7b findOne: stub \x7d;" = "repository" ∧
    ∀ content : String, pyIn "jest.fn" (pyLower content) = true →
      infer_mock_type content = "function" := by
  refine ⟨by decide, by decide, by decide, by decide, by decide, ?_⟩
  intro content h
  unfold infer_mock_type
  simp [h]

/-- C2 witness: the universally quantified clause of the amended theorem at
a concrete content. -/
theorem C2_witness : infer_mock_type "const spyX = jest.fn();" = "function" :=
  C2_mock_type_rules.2.2.2.2.2 "const spyX = jest.fn();" (by decide)

set_option maxRecDepth 1000000 in
/-- C3 counterexample: in scenario A the `beforeEach` is nested inside the
describe block, and `setupHooks` only reports top-level hook blocks, so
`parse` answers `setupHooks = []`, not `['beforeEach']` as the claim
states. -/
theorem C3_counterexample :
    (parse scenarioA).setup_hooks = [] ∧
    (parse scenarioA).setup_hooks ≠ ["beforeEach"] := by
  constructor
  · decide
  · decide

set_option maxRecDepth 1000000 in
/-- C3 (amended): scenario A yields no categories (the top-level describe
is not nested), exactly the two `it` names in source order, and no setup
hooks (the `beforeEach` is nested inside the describe, and only top-level
hooks are reported). -/
theorem C3_scenario_a :
    (parse scenarioA).categories = [] ∧
    (parse scenarioA).test_cases = ["creates a user", "deletes a user"] ∧
    (parse scenarioA).setup_hooks = [] := by
  refine ⟨?_, ?_, ?_⟩
  · decide
  · decide
  · decide

/-- C7 (confirmed): the empty input yields a `ParseResult` with every
sequence empty, cyclomatic complexity 1, nesting depth 0 and zero blocks;
and on any content the cyclomatic complexity is at least 1 (it is one plus
a sum of substring counts). -/
theorem C7_empty_input :
    ((parse "").imports = [] ∧ (parse "").mock_data = [] ∧
     (parse "").categories = [] ∧ (parse "").test_cases = [] ∧
     (parse "").setup_hooks = [] ∧
     (parse "").complexity_metrics.cyclomatic_complexity = 1 ∧
     (parse "").complexity_metrics.max_nesting_depth = 0 ∧
     (parse "").complexity_metrics.total_blocks = 0) ∧
    ∀ content : String, 1 ≤ (parse content).complexity_metrics.cyclomatic_complexity := by
  constructor
  · exact ⟨by decide, by decide, by decide, by decide, by decide, by decide, by decide, by decide⟩
  · intro content
    show 1 ≤ calculate_cyclomatic content
    unfold calculate_cyclomatic
    exact Nat.le_add_left 1 _

/-- The cursor loop of `parse_mocks` only emits well-formed, in-bound,
strictly advancing declarations whose content is the exact line slice. -/
theorem parse_mocks_aux_inv (lines : List String) (fuel : Nat) :
    ∀ i : Nat,
    (∀ mv ∈ parse_mocks_aux lines fuel i,
       i ≤ mv.start_line ∧ mv.start_line ≤ mv.end_line ∧
       mv.end_line ≤ lines.length - 1 ∧
       mv.content = joinRange lines mv.start_line mv.end_line) ∧
    (parse_mocks_aux lines fuel i).Chain' (fun a b => a.end_line < b.start_line) := by
  induction fuel with
  | zero =>
    intro i
    exact ⟨fun mv h => absurd h (List.not_mem_nil mv), List.chain'_nil⟩
  | succ fuel ih =>
    intro i
    rw [parse_mocks_aux]
    by_cases h : i < lines.length
    case neg =>
      simp only [h, dif_neg, not_false_iff]
      exact ⟨fun mv h => absurd h (List.not_mem_nil mv), List.chain'_nil⟩
    simp only [h, dif_pos]
    cases hm : matchConstLine lines[i] with
    | none =>
      refine ⟨fun mv hmv => ?_, (ih (i + 1)).2⟩
      have := (ih (i + 1)).1 mv hmv
      exact ⟨by omega, this.2.1, this.2.2.1, this.2.2.2⟩
    | some var_name =>
      by_cases hmock : is_mock_variable var_name
      case neg =>
        simp only [hmock, if_neg, Bool.false_eq_true, not_false_iff]
        refine ⟨fun mv hmv => ?_, (ih (i + 1)).2⟩
        have := (ih (i + 1)).1 mv hmv
        exact ⟨by omega, this.2.1, this.2.2.1, this.2.2.2⟩
      simp only [hmock, if_pos]
      have hge : i ≤ find_declaration_end lines i := find_declaration_end_ge lines i h
      have hle : find_declaration_end lines i ≤ lines.length - 1 :=
        find_declaration_end_le lines i
      constructor
      · intro mv hmv
        rcases List.mem_cons.mp hmv with hmv | hmv
        · subst hmv
          exact ⟨Nat.le_refl i, hge, hle, rfl⟩
        · have := (ih (find_declaration_end lines i + 1)).1 mv hmv
          exact ⟨by omega, this.2.1, this.2.2.1, this.2.2.2⟩
      · rw [List.chain'_cons']
        refine ⟨fun b hb => ?_, (ih (find_declaration_end lines i + 1)).2⟩
        have hbmem := List.mem_of_mem_head? hb
        have := (ih (find_declaration_end lines i + 1)).1 b hbmem
        show find_declaration_end lines i < b.start_line
        omega

/-- C6 (confirmed): every `MockVariable` emitted by `parseMocks` has as its
content exactly the newline-join of the inclusive line slice
`lines[startLine..endLine]`. -/
theorem C6_mock_roundtrip (lines : List String) (mv : MockVariable)
    (h : mv ∈ parse_mocks lines) :
    String.intercalate "\n"
        ((lines.drop mv.start_line).take (mv.end_line - mv.start_line + 1)) =
      mv.content := by
  have H := (parse_mocks_aux_inv lines (lines.length + 1) 0).1 mv h
  have heq : mv.end_line - mv.start_line + 1 = mv.end_line + 1 - mv.start_line := by omega
  rw [heq]
  exact H.2.2.2.symm

/-- C6 witness: a one-line primitive mock declaration round-trips. -/
theorem C6_witness :
    String.intercalate "\n" ((["const mockId = 5;"].drop 0).take (0 - 0 + 1)) =
      "const mockId = 5;" :=
  C6_mock_roundtrip ["const mockId = 5;"]
    { name := "mockId", content := "const mockId = 5;", start_line := 0, end_line := 0,
      mock_type := "primitive", complexity := 0 } (by decide)

/-- C9 (confirmed): every emitted mock satisfies
`startLine ≤ endLine ≤ len(lines) - 1`, and consecutive mocks occupy
disjoint, strictly ascending line ranges. -/
theorem C9_mock_ranges (lines : List String) :
    (∀ mv ∈ parse_mocks lines,
       mv.start_line ≤ mv.end_line ∧ mv.end_line ≤ lines.length - 1) ∧
    (parse_mocks lines).Chain' (fun a b => a.end_line < b.start_line) := by
  have H := parse_mocks_aux_inv lines (lines.length + 1) 0
  exact ⟨fun mv h => ⟨(H.1 mv h).2.1, (H.1 mv h).2.2.1⟩, H.2⟩

/-- C9 witness: the ranges of two concrete mocks are in-bounds, disjoint
and ascending. -/
theorem C9_witness :
    (∀ mv ∈ parse_mocks ["const mockA = 1;", "x", "const testB = 2;"],
       mv.start_line ≤ mv.end_line ∧ mv.end_line ≤ 2) ∧
    (parse_mocks ["const mockA = 1;", "x", "const testB = 2;"]).Chain'
      (fun a b => a.end_line < b.start_line) :=
  C9_mock_ranges ["const mockA = 1;", "x", "const testB = 2;"]

/-- A successfully parsed `it` block satisfies the block invariants and
starts at the requested line. -/
theorem parse_it_block_good (lines : List String) (start : Nat) (b : TestBlock)
    (h : parse_it_block lines start = some b) :
    BlockInv lines b ∧ b.start_line = start := by
  unfold parse_it_block at h
  by_cases hl : start < lines.length
  case neg => simp [hl] at h
  rw [dif_pos hl] at h
  split at h
  · exact absurd h (by simp)
  · simp only [Option.some.injEq] at h
    subst h
    refine ⟨BlockInv.intro _ ?_ ?_ ?_ ?_ ?_ ?_ ?_, rfl⟩
    · exact find_block_end_ge lines start hl
    · exact find_block_end_le lines start
    · exact hl
    · rfl
    · intro hd
      exact nomatch hd
    · intro c hc
      exact absurd hc (List.not_mem_nil c)
    · intro c hc
      exact absurd hc (List.not_mem_nil c)

/-- `hookKind` never answers the describe kind. -/
theorem hookKind_ne_describe (s : String) : hookKind s ≠ BlockType.DESCRIBE := by
  unfold hookKind
  split
  · decide
  · split
    · decide
    · split
      · decide
      · decide

/-- A successfully parsed hook block satisfies the block invariants and
starts at the requested line. -/
theorem parse_hook_good (lines : List String) (start : Nat) (b : TestBlock)
    (h : parse_hook lines start = some b) :
    BlockInv lines b ∧ b.start_line = start := by
  unfold parse_hook at h
  by_cases hl : start < lines.length
  case neg => simp [hl] at h
  rw [dif_pos hl] at h
  split at h
  · exact absurd h (by simp)
  case _ hk _ =>
    simp only [Option.some.injEq] at h
    subst h
    refine ⟨BlockInv.intro _ ?_ ?_ ?_ ?_ ?_ ?_ ?_, rfl⟩
    · exact find_block_end_ge lines start hl
    · exact find_block_end_le lines start
    · exact hl
    · rfl
    · intro hd
      exact absurd hd (hookKind_ne_describe hk)
    · intro c hc
      exact absurd hc (List.not_mem_nil c)
    · intro c hc
      exact absurd hc (List.not_mem_nil c)

/-- Every block produced by the describe family — a parsed describe block,
any member of a child scan, any parsed child — satisfies the block
invariants and starts where its parse began (for the child scan: at or
after the scanning cursor). -/
theorem describe_family_good (lines : List String) (fuel : Nat) :
    (∀ start b, parse_describe_block lines fuel start = some b →
      BlockInv lines b ∧ b.start_line = start) ∧
    (∀ i stop c, c ∈ parse_children lines fuel i stop →
      BlockInv lines c ∧ i ≤ c.start_line) ∧
    (∀ start b, parse_child_block lines fuel start = some b →
      BlockInv lines b ∧ b.start_line = start) := by
  induction fuel with
  | zero =>
    refine ⟨?_, ?_, ?_⟩
    · intro start b h
      exact absurd h (by simp [parse_describe_block])
    · intro i stop c hc
      rw [parse_children] at hc
      exact absurd hc (List.not_mem_nil c)
    · intro start b h
      exact absurd h (by simp [parse_child_block])
  | succ fuel ih =>
    obtain ⟨ihD, ihC, ihB⟩ := ih
    refine ⟨?_, ?_, ?_⟩
    · intro start b h
      rw [parse_describe_block] at h
      by_cases hl : start < lines.length
      case neg => simp [hl] at h
      rw [dif_pos hl] at h
      split at h
      · exact absurd h (by simp)
      · simp only [Option.some.injEq] at h
        subst h
        refine ⟨BlockInv.intro _ ?_ ?_ ?_ ?_ ?_ ?_ ?_, rfl⟩
        · exact find_block_end_ge lines start hl
        · exact find_block_end_le lines start
        · exact hl
        · rfl
        · intro _
          constructor
          · show pyStartsWith lines[start] " " = pyStartsWith (lines.getD start "") " "
            rw [List.getD_eq_getElem lines "" hl]
          · show leadingWsCount lines[start] = leadingWsCount (lines.getD start "")
            rw [List.getD_eq_getElem lines "" hl]
        · intro c hc
          have := (ihC (start + 1) (find_block_end lines start) c hc).2
          show start < c.start_line
          omega
        · intro c hc
          exact (ihC (start + 1) (find_block_end lines start) c hc).1
    · intro i stop c hc
      rw [parse_children] at hc
      by_cases hlt : i < stop
      case neg =>
        rw [if_neg hlt] at hc
        exact absurd hc (List.not_mem_nil c)
      rw [if_pos hlt] at hc
      cases hcb : parse_child_block lines fuel i with
      | none =>
        rw [hcb] at hc
        have := ihC (i + 1) stop c hc
        exact ⟨this.1, by omega⟩
      | some c0 =>
        rw [hcb] at hc
        rcases List.mem_cons.mp hc with hc | hc
        · subst hc
          have := ihB i c hcb
          exact ⟨this.1, Nat.le_of_eq this.2.symm⟩
        · have htail := ihC (c0.end_line + 1) stop c hc
          have hc0 := ihB i c0 hcb
          have hse : c0.start_line ≤ c0.end_line := by
            cases hc0.1 with
            | intro _ h1 _ _ _ _ _ _ => exact h1
          refine ⟨htail.1, ?_⟩
          have := hc0.2
          omega
    · intro start b h
      rw [parse_child_block] at h
      by_cases hl : start < lines.length
      case neg => simp [hl] at h
      rw [dif_pos hl] at h
      by_cases h1 : pyIn "describe(" (pyStrip lines[start]) = true
      · rw [if_pos (by rw [h1])] at h
        exact ihD start b h
      · rw [if_neg (by rw [Bool.not_eq_true] at h1; rw [h1]; exact Bool.false_ne_true)] at h
        by_cases h2 : pyIn "it(" (pyStrip lines[start]) = true
        · rw [if_pos (by rw [h2])] at h
          exact parse_it_block_good lines start b h
        · rw [if_neg (by rw [Bool.not_eq_true] at h2; rw [h2]; exact Bool.false_ne_true)] at h
          by_cases h3 : mentionsHook (pyStrip lines[start]) = true
          · rw [if_pos (by rw [h3])] at h
            exact parse_hook_good lines start b h
          · rw [if_neg (by rw [Bool.not_eq_true] at h3; rw [h3]; exact Bool.false_ne_true)] at h
            exact absurd h (by simp)

/-- Every top-level block of the structure parser's cursor loop satisfies
the block invariants. -/
theorem parse_structure_aux_good (lines : List String) (fuel : Nat) :
    ∀ i b, b ∈ parse_structure_aux lines fuel i → BlockInv lines b := by
  induction fuel with
  | zero =>
    intro i b hb
    exact absurd hb (List.not_mem_nil b)
  | succ fuel ih =>
    intro i b hb
    rw [parse_structure_aux] at hb
    by_cases h : i < lines.length
    case neg => simp [h] at hb
    rw [dif_pos h] at hb
    by_cases hskip : skipLine (pyStrip lines[i]) = true
    · rw [if_pos (by rw [hskip])] at hb
      exact ih (i + 1) b hb
    · rw [if_neg (by rw [Bool.not_eq_true] at hskip; rw [hskip]; exact Bool.false_ne_true)] at hb
      cases hd : (if pyIn "describe(" (pyStrip lines[i]) then
          parse_describe_block lines (describeFuel lines) i else none) with
      | some b0 =>
        rw [hd] at hb
        rcases List.mem_cons.mp hb with hb | hb
        · subst hb
          have hds : parse_describe_block lines (describeFuel lines) i = some b := by
            by_cases hp : pyIn "describe(" (pyStrip lines[i]) = true
            · rw [if_pos (by rw [hp])] at hd
              exact hd
            · rw [if_neg (by rw [Bool.not_eq_true] at hp; rw [hp]; exact Bool.false_ne_true)] at hd
              exact absurd hd (by simp)
          exact ((describe_family_good lines (describeFuel lines)).1 i b hds).1
        · exact ih (b0.end_line + 1) b hb
      | none =>
        rw [hd] at hb
        cases hi : (if pyIn "it(" (pyStrip lines[i]) then parse_it_block lines i else none) with
        | some b0 =>
          rw [hi] at hb
          rcases List.mem_cons.mp hb with hb | hb
          · subst hb
            have his : parse_it_block lines i = some b := by
              by_cases hp : pyIn "it(" (pyStrip lines[i]) = true
              · rw [if_pos (by rw [hp])] at hi
                exact hi
              · rw [if_neg (by rw [Bool.not_eq_true] at hp; rw [hp]; exact Bool.false_ne_true)] at hi
                exact absurd hi (by simp)
            exact (parse_it_block_good lines i b his).1
          · exact ih (b0.end_line + 1) b hb
        | none =>
          rw [hi] at hb
          cases hh : (if mentionsHook (pyStrip lines[i]) then parse_hook lines i else none) with
          | some b0 =>
            rw [hh] at hb
            rcases List.mem_cons.mp hb with hb | hb
            · subst hb
              have hhs : parse_hook lines i = some b := by
                by_cases hp : mentionsHook (pyStrip lines[i]) = true
                · rw [if_pos (by rw [hp])] at hh
                  exact hh
                · rw [if_neg (by rw [Bool.not_eq_true] at hp; rw [hp]; exact Bool.false_ne_true)] at hh
                  exact absurd hh (by simp)
              exact (parse_hook_good lines i b hhs).1
            · exact ih (b0.end_line + 1) b hb
          | none =>
            rw [hh] at hb
            exact ih (i + 1) b hb

/-- Every block anywhere in a `parse_structure` forest satisfies the block
invariants. -/
theorem inForest_blockInv (lines : List String) (b : TestBlock)
    (h : InForest (parse_structure lines) b) : BlockInv lines b := by
  induction h with
  | top hb => exact parse_structure_aux_good lines (lines.length + 1) 0 _ hb
  | child _ hc ih =>
    cases ih with
    | intro p h1 h2 h3 h4 h5 h6 h7 => exact h7 _ hc

/-- C10 (confirmed): every block in the forest returned by
`parseStructure`, at any depth, has `startLine ≤ endLine ≤ len(lines)-1`,
its content is the newline-join of the inclusive slice
`lines[startLine..endLine]`, and each of its children starts strictly
below it. -/
theorem C10_forest_invariants (lines : List String) (b : TestBlock)
    (h : InForest (parse_structure lines) b) :
    b.start_line ≤ b.end_line ∧ b.end_line ≤ lines.length - 1 ∧
    b.content = joinRange lines b.start_line b.end_line ∧
    ∀ c ∈ b.children, b.start_line < c.start_line := by
  cases inForest_blockInv lines b h with
  | intro b h1 h2 h3 h4 h5 h6 h7 => exact ⟨h1, h2, h4, h6⟩

set_option maxRecDepth 1000000 in
/-- C10 witness: the invariants at the concrete one-hook file. -/
theorem C10_witness :
    hookBlock.start_line ≤ hookBlock.end_line ∧ hookBlock.end_line ≤ 1 ∧
    hookBlock.content = joinRange hookLines hookBlock.start_line hookBlock.end_line ∧
    ∀ c ∈ hookBlock.children, hookBlock.start_line < c.start_line :=
  C10_forest_invariants hookLines hookBlock
    (InForest.top (by
      rw [show parse_structure hookLines = [hookBlock] from rfl]
      exact List.mem_singleton_self hookBlock))

/-- C8 (amended): for every describe block anywhere in a `parseStructure`
forest, `isNestedCategory` is true exactly when the raw start line begins
with a space character `' '` — while `indentationWidth` counts every
leading whitespace character, so a tab-indented describe has positive
width but a false flag. -/
theorem C8_is_nested_space (lines : List String) (b : TestBlock)
    (h : InForest (parse_structure lines) b) (hd : b.type = BlockType.DESCRIBE) :
    b.metaBool "is_nested" = pyStartsWith (lines.getD b.start_line "") " " ∧
    b.metaNat "indentation" = leadingWsCount (lines.getD b.start_line "") := by
  cases inForest_blockInv lines b h with
  | intro b h1 h2 h3 h4 h5 h6 h7 => exact h5 hd

set_option maxRecDepth 1000000 in
/-- C8 counterexample: the tab-indented describe of `tabLines` has
`indentationWidth = 1 > 0` yet `isNestedCategory = false`, refuting the
claimed equivalence with `indentationWidth > 0`. -/
theorem C8_counterexample :
    InForest (parse_structure tabLines) tabBlock ∧
    tabBlock.type = BlockType.DESCRIBE ∧
    0 < tabBlock.metaNat "indentation" ∧
    tabBlock.metaBool "is_nested" = false := by
  refine ⟨InForest.top ?_, rfl, by decide, by decide⟩
  rw [show parse_structure tabLines = [tabBlock] from rfl]
  exact List.mem_singleton_self tabBlock

set_option maxRecDepth 1000000 in
/-- C8 witness: the space-indented describe of `spaceLines`. -/
theorem C8_witness :
    spaceBlock.metaBool "is_nested" = pyStartsWith (spaceLines.getD spaceBlock.start_line "") " " ∧
    spaceBlock.metaNat "indentation" = leadingWsCount (spaceLines.getD spaceBlock.start_line "") :=
  C8_is_nested_space spaceLines spaceBlock
    (InForest.top (by
      rw [show parse_structure spaceLines = [spaceBlock] from rfl]
      exact List.mem_singleton_self spaceBlock))
    rfl

end RefactorTS
